import Mathlib

/-!
Shallow embedding of the Thumbnail-Extractor repository
(`src/thumbnail_extractor.py`, the OpenCV decode backend, and
`src/thumbnail_extractor_ffmpeg.py`, the FFmpeg process backend),
together with theorems settling the frozen claims about it.

Numbers that Python holds as floats (frame rates, durations, timestamps)
are modelled as rationals; machine paths and names are modelled as Lean
strings over their character lists; the effectful boundary (filesystem,
OpenCV, subprocess) is modelled by explicit environment records whose
fields record the outcome of each external call, and each extraction
function returns its boolean result together with a trace of backend
events, or an `Except` value when a Python exception can escape.
-/

namespace ThumbEx

/-- Python `str.lower()` restricted to the ASCII case mapping used by the
extension checks (`video_path.suffix.lower()`). -/
def lowerStr (s : String) : String := ⟨s.data.map Char.toLower⟩

/-- Python `str.upper()` as used by `ext.upper()` in folder globbing. -/
def upperStr (s : String) : String := ⟨s.data.map Char.toUpper⟩

/-- Python `str.endswith(suffix)`. -/
def endsWithStr (suffix s : String) : Bool := suffix.data.isSuffixOf s.data

/-- Python `int()` applied to a float value: truncation toward zero. -/
def pytrunc (q : ℚ) : ℤ := if 0 ≤ q then ⌊q⌋ else -⌊-q⌋

/-- `SUPPORTED_FORMATS`, identical in both backend classes. -/
def SUPPORTED_FORMATS : List String :=
  [".mp4", ".avi", ".mov", ".mkv", ".flv", ".wmv", ".webm"]

/-- A POSIX path string is absolute when it starts with a slash. -/
def isAbsolutePath (s : String) : Bool :=
  match s.data with
  | [] => false
  | c :: _ => c = '/'

/-- `pathlib`'s `/` operator on POSIX strings: an absolute right operand
replaces the left operand, otherwise the parts are joined with a slash. -/
def joinPath (dir name : String) : String :=
  if isAbsolutePath name then name else dir ++ "/" ++ name

/-- Split a character list into slash-separated path components. -/
def splitSlash : List Char → List (List Char)
  | [] => [[]]
  | c :: cs =>
    if c = '/' then [] :: splitSlash cs
    else
      match splitSlash cs with
      | [] => [[c]]
      | h :: t => (c :: h) :: t

/-- A path `p` lies inside folder `dir` when its components extend the
components of `dir` by at least one component and none of the added
components is `..` (which would climb back out of the folder). -/
def insideFolder (dir p : String) : Bool :=
  (splitSlash dir.data).isPrefixOf (splitSlash p.data) &&
  !((splitSlash p.data).drop (splitSlash dir.data).length).isEmpty &&
  ((splitSlash p.data).drop (splitSlash dir.data).length).all
    (fun comp => !(comp == ['.', '.']))

/-- Backend events observable at the external boundary during one
single-file extraction: OpenCV capture lifecycle and writes for the decode
backend, subprocess invocations for the process backend. -/
inductive Event where
  | openCapture : Event
  | setPos : ℤ → Event
  | readFrame : Event
  | imwrite : String → Event
  | release : Event
  | runFfprobe : Event
  | runFfmpeg : ℚ → String → Event
  deriving DecidableEq, Repr

/-- The decode backend's frame target,
`target_frame = max(0, total_frames - int(fps))`
(`thumbnail_extractor.py` line 73). -/
def targetFrame (total_frames : ℤ) (fps : ℚ) : ℤ :=
  max 0 (total_frames - pytrunc fps)

/-- The process backend's seek target,
`timestamp = max(0, duration - 1.0)`
(`thumbnail_extractor_ffmpeg.py` line 108). -/
def timestamp (duration : ℚ) : ℚ :=
  max 0 (duration - 1)

/-- Constructor configuration of `ThumbnailExtractor` (decode backend):
the output folder and the validated image format (`jpeg` or `png`). -/
structure Config where
  output_folder : String
  image_format : String
  deriving DecidableEq

/-- `self.file_extension = 'jpg' if self.image_format == 'jpeg' else 'png'`
(`thumbnail_extractor.py` line 32). -/
def file_extension (cfg : Config) : String :=
  if cfg.image_format = "jpeg" then "jpg" else "png"

/-- Output-name normalisation of the decode backend
(`thumbnail_extractor.py` lines 86-89): derive
`<stem>_thumbnail.<ext>` when no name is given, and append the configured
extension when the given name ends in none of `.jpg`, `.jpeg`, `.png`. -/
def decode_output_name (cfg : Config) (stem : String) :
    Option String → String
  | none => stem ++ "_thumbnail." ++ file_extension cfg
  | some n =>
    if endsWithStr ".jpg" n || endsWithStr ".jpeg" n || endsWithStr ".png" n
    then n
    else n ++ "." ++ file_extension cfg

/-- Output-name normalisation of the process backend
(`thumbnail_extractor_ffmpeg.py` lines 111-114): the default name always
uses `.jpg`, and `.jpg` is appended when the given name ends in neither
`.jpg` nor `.png`. -/
def ffmpeg_output_name (stem : String) : Option String → String
  | none => stem ++ "_thumbnail.jpg"
  | some n =>
    if endsWithStr ".jpg" n || endsWithStr ".png" n then n
    else n ++ ".jpg"

/-- Environment of one decode-backend extraction call: the filesystem
facts about the input path and the outcomes of each OpenCV call. -/
structure DecodeEnv where
  pathExists : Bool
  suffix : String
  stem : String
  openOk : Bool
  fps : ℚ
  frameCount : ℚ
  readOk : Bool
  writeRaises : Bool

/-- `ThumbnailExtractor.extract_thumbnail` (`thumbnail_extractor.py`
lines 34-109): existence check, case-insensitive format check, OpenCV
open, property validation, seek to `targetFrame`, read, name
normalisation and write; OpenCV calls appear in the returned trace, any
exception inside the `try` block is caught and turned into `False`, and
the `finally` clause releases the capture on every path after a
successful open.  The capture construction and `isOpened` check precede
the `try`, so a failed open returns without a release event. -/
def extract_thumbnail (cfg : Config) (env : DecodeEnv)
    (output_name : Option String) : Bool × List Event :=
  if ¬ env.pathExists then (false, [])
  else if lowerStr env.suffix ∉ SUPPORTED_FORMATS then (false, [])
  else if ¬ env.openOk then (false, [.openCapture])
  else
    let fps := env.fps
    let total_frames := pytrunc env.frameCount
    if total_frames = 0 ∨ fps = 0 then (false, [.openCapture, .release])
    else
      let target_frame := targetFrame total_frames fps
      if ¬ env.readOk then
        (false, [.openCapture, .setPos target_frame, .readFrame, .release])
      else
        let name := decode_output_name cfg env.stem output_name
        let output_path := joinPath cfg.output_folder name
        if env.writeRaises then
          (false, [.openCapture, .setPos target_frame, .readFrame,
                   .imwrite output_path, .release])
        else
          (true, [.openCapture, .setPos target_frame, .readFrame,
                  .imwrite output_path, .release])

/-- Python exceptions that can escape an extraction call. -/
inductive PyError where
  | fileNotFoundError : PyError
  deriving DecidableEq, Repr

/-- Outcome of the `ffprobe` subprocess inside `get_video_duration`:
the executable may be missing (`FileNotFoundError`), the run may exit
non-zero (`CalledProcessError`), or it completes and its stdout parses to
`some` duration, with `none` covering a `JSONDecodeError`, a `ValueError`
from `float`, and JSON output without a `format.duration` entry. -/
inductive ProbeOutcome where
  | fileNotFound : ProbeOutcome
  | calledProcessError : ProbeOutcome
  | output : Option ℚ → ProbeOutcome

/-- `FFmpegThumbnailExtractor.get_video_duration`
(`thumbnail_extractor_ffmpeg.py` lines 46-75): the `except` clause
catches `CalledProcessError`, `JSONDecodeError` and `ValueError` and
returns `None`, but a `FileNotFoundError` from `subprocess.run` (missing
`ffprobe` executable) is not in the tuple and escapes. -/
def get_video_duration (probe : ProbeOutcome) :
    Except PyError (Option ℚ) × List Event :=
  match probe with
  | .fileNotFound => (.error .fileNotFoundError, [.runFfprobe])
  | .calledProcessError => (.ok none, [.runFfprobe])
  | .output d => (.ok d, [.runFfprobe])

/-- Outcome of the `ffmpeg` subprocess inside the `try` block of the
process backend: any exception there is caught, and a completed run is
followed by an existence check of the output file. -/
inductive RunOutcome where
  | raises : RunOutcome
  | completed : Bool → RunOutcome

/-- Environment of one process-backend extraction call. -/
structure FfmpegEnv where
  pathExists : Bool
  suffix : String
  stem : String
  probe : ProbeOutcome
  ffmpegRun : RunOutcome

/-- `FFmpegThumbnailExtractor.extract_thumbnail`
(`thumbnail_extractor_ffmpeg.py` lines 77-155): existence check,
case-insensitive format check, duration probe, duration validation,
timestamp computation, name normalisation and the `ffmpeg` invocation.
The call to `get_video_duration` at line 100 sits outside every `try`
block, so an exception escaping it escapes the whole operation; the
`ffmpeg` run is inside a `try` whose clauses catch every exception. -/
def ffm_extract_thumbnail (output_folder : String) (env : FfmpegEnv)
    (output_name : Option String) : Except PyError Bool × List Event :=
  if ¬ env.pathExists then (.ok false, [])
  else if lowerStr env.suffix ∉ SUPPORTED_FORMATS then (.ok false, [])
  else
    match get_video_duration env.probe with
    | (.error e, tr) => (.error e, tr)
    | (.ok none, tr) => (.ok false, tr)
    | (.ok (some duration), tr) =>
      if duration ≤ 0 then (.ok false, tr)
      else
        let ts := timestamp duration
        let name := ffmpeg_output_name env.stem output_name
        let output_path := joinPath output_folder name
        match env.ffmpegRun with
        | .raises => (.ok false, tr ++ [.runFfmpeg ts output_path])
        | .completed outputExists =>
          if outputExists then (.ok true, tr ++ [.runFfmpeg ts output_path])
          else (.ok false, tr ++ [.runFfmpeg ts output_path])

/-- Environment of one folder run: the folder's filesystem status, its
direct entries, and whether globbing matches names case-insensitively
(as it does on a case-insensitive filesystem). -/
structure FolderEnv where
  pathExists : Bool
  isDir : Bool
  entries : List String
  caseInsensitiveFS : Bool

/-- Whether `folder_path.glob("*" + ext)` matches a directory entry:
exact suffix match on a case-sensitive filesystem, case-folded suffix
match on a case-insensitive one. -/
def globMatch (ci : Bool) (ext name : String) : Bool :=
  if ci then endsWithStr (lowerStr ext) (lowerStr name)
  else endsWithStr ext name

/-- The enumeration loop of `process_folder` (both backends, e.g.
`thumbnail_extractor.py` lines 132-135): for each supported extension,
append the matches of the lower-case glob and then of the upper-cased
glob, with no deduplication. -/
def findVideoFiles (env : FolderEnv) : List String :=
  SUPPORTED_FORMATS.foldl
    (fun acc ext =>
      acc ++ env.entries.filter (globMatch env.caseInsensitiveFS ext)
          ++ env.entries.filter
              (globMatch env.caseInsensitiveFS (upperStr ext)))
    []

/-- `process_folder` (both backends, e.g. `thumbnail_extractor.py`
lines 111-154): existence and directory checks, enumeration, then one
`extract_thumbnail` call per enumerated entry accumulating the
success/failure counters; `extractOutcome` abstracts the boolean result
of `self.extract_thumbnail(video_file)` for each file. -/
def process_folder (env : FolderEnv) (extractOutcome : String → Bool) :
    ℕ × ℕ :=
  if ¬ env.pathExists then (0, 0)
  else if ¬ env.isDir then (0, 0)
  else
    let video_files := findVideoFiles env
    if video_files = [] then (0, 0)
    else
      video_files.foldl
        (fun counts f =>
          if extractOutcome f then (counts.1 + 1, counts.2)
          else (counts.1, counts.2 + 1))
        (0, 0)

/-! ## Helper lemmas on paths, names and counters -/

lemma splitSlash_ne_nil (l : List Char) : splitSlash l ≠ [] := by
  cases l with
  | nil => simp [splitSlash]
  | cons c cs =>
    rw [splitSlash]
    by_cases h : c = '/'
    · simp [h]
    · rw [if_neg h]
      cases splitSlash cs <;> simp

lemma splitSlash_of_noSlash (l : List Char) (h : '/' ∉ l) :
    splitSlash l = [l] := by
  induction l with
  | nil => rfl
  | cons c cs ih =>
    simp only [List.mem_cons, not_or] at h
    rw [splitSlash, if_neg (fun hc => h.1 hc.symm), ih h.2]

lemma splitSlash_append (d n : List Char) (hn : '/' ∉ n) :
    splitSlash (d ++ '/' :: n) = splitSlash d ++ [n] := by
  induction d with
  | nil =>
    simp only [List.nil_append]
    have h1 : splitSlash ('/' :: n) = [] :: splitSlash n := by
      simp [splitSlash]
    rw [h1, splitSlash_of_noSlash n hn]
    rfl
  | cons c cs ih =>
    by_cases hc : c = '/'
    · rw [List.cons_append, splitSlash, if_pos hc, ih, splitSlash, if_pos hc,
          List.cons_append]
    · rw [List.cons_append, splitSlash, if_neg hc, ih, splitSlash, if_neg hc]
      rcases hs : splitSlash cs with _ | ⟨h', t⟩
      · exact absurd hs (splitSlash_ne_nil cs)
      · simp

lemma isAbsolutePath_eq_false (n : String) (hn : '/' ∉ n.data) :
    isAbsolutePath n = false := by
  rw [isAbsolutePath]
  rcases hd : n.data with _ | ⟨c, cs⟩
  · rfl
  · rw [hd] at hn
    simp only [List.mem_cons, not_or] at hn
    have hc : ¬ c = '/' := fun h => hn.1 h.symm
    simp [hc]

lemma joinPath_of_noSlash (dir n : String) (hn : '/' ∉ n.data) :
    joinPath dir n = dir ++ "/" ++ n := by
  rw [joinPath, isAbsolutePath_eq_false n hn]
  simp

lemma insideFolder_join (dir n : String) (hn : '/' ∉ n.data)
    (hdd : n.data ≠ ['.', '.']) :
    insideFolder dir (dir ++ "/" ++ n) = true := by
  have hdata : (dir ++ "/" ++ n).data = dir.data ++ '/' :: n.data := by
    simp [String.data_append]
  rw [insideFolder, hdata, splitSlash_append dir.data n.data hn]
  simp [ List.isPrefixOf_iff_prefix, List.prefix_append, List.drop_left, hdd]

lemma noSlash_append (a b : String) (ha : '/' ∉ a.data) (hb : '/' ∉ b.data) :
    '/' ∉ (a ++ b).data := by
  rw [String.data_append]
  simp [ha, hb]

lemma noSlash_file_extension (cfg : Config) :
    '/' ∉ (file_extension cfg).data := by
  rw [file_extension]
  split <;> decide

lemma file_extension_len (cfg : Config) :
    (file_extension cfg).data.length = 3 := by
  rw [file_extension]
  split <;> rfl

lemma decode_output_name_safe (cfg : Config) (stem : String)
    (oname : Option String) (hstem : '/' ∉ stem.data)
    (ho : ∀ n ∈ oname, '/' ∉ n.data) :
    '/' ∉ (decode_output_name cfg stem oname).data ∧
    (decode_output_name cfg stem oname).data ≠ ['.', '.'] := by
  cases oname with
  | none =>
    refine ⟨noSlash_append _ _ (noSlash_append _ _ hstem (by decide))
      (noSlash_file_extension cfg), ?_⟩
    intro hcontra
    have hlen := congrArg List.length hcontra
    simp only [decode_output_name, String.data_append, List.length_append,
      file_extension_len, List.length_cons, List.length_nil] at hlen
    omega
  | some n =>
    have hn : '/' ∉ n.data := ho n rfl
    rw [decode_output_name]
    by_cases hrec : (endsWithStr ".jpg" n || endsWithStr ".jpeg" n ||
        endsWithStr ".png" n) = true
    · rw [if_pos hrec]
      refine ⟨hn, fun hcontra => ?_⟩
      have hne : n = ".." := String.ext hcontra
      rw [hne] at hrec
      exact absurd hrec (by decide)
    · rw [if_neg hrec]
      refine ⟨noSlash_append _ _ (noSlash_append _ _ hn (by decide))
        (noSlash_file_extension cfg), ?_⟩
      intro hcontra
      have hlen := congrArg List.length hcontra
      simp only [String.data_append, List.length_append,
        file_extension_len, List.length_cons, List.length_nil] at hlen
      omega

lemma ffmpeg_output_name_safe (stem : String) (oname : Option String)
    (hstem : '/' ∉ stem.data) (ho : ∀ n ∈ oname, '/' ∉ n.data) :
    '/' ∉ (ffmpeg_output_name stem oname).data ∧
    (ffmpeg_output_name stem oname).data ≠ ['.', '.'] := by
  cases oname with
  | none =>
    refine ⟨noSlash_append _ _ hstem (by decide), ?_⟩
    intro hcontra
    have hlen := congrArg List.length hcontra
    simp only [ffmpeg_output_name, String.data_append,
      List.length_append, List.length_cons, List.length_nil] at hlen
    omega
  | some n =>
    have hn : '/' ∉ n.data := ho n rfl
    rw [ffmpeg_output_name]
    by_cases hrec : (endsWithStr ".jpg" n || endsWithStr ".png" n) = true
    · rw [if_pos hrec]
      refine ⟨hn, fun hcontra => ?_⟩
      have hne : n = ".." := String.ext hcontra
      rw [hne] at hrec
      exact absurd hrec (by decide)
    · rw [if_neg hrec]
      refine ⟨noSlash_append _ _ hn (by decide), ?_⟩
      intro hcontra
      have hlen := congrArg List.length hcontra
      simp only [String.data_append, List.length_append,
        List.length_cons, List.length_nil] at hlen
      omega

lemma foldl_counts (res : String → Bool) :
    ∀ (l : List String) (a b : ℕ),
      l.foldl
        (fun counts f => if res f then (counts.1 + 1, counts.2)
                         else (counts.1, counts.2 + 1)) (a, b) =
        (a + l.countP res, b + l.countP (fun f => !res f)) := by
  intro l
  induction l with
  | nil => intro a b; simp
  | cons x xs ih =>
    intro a b
    by_cases h : res x = true <;>
      simp [List.countP_cons, h, ih, Prod.ext_iff] <;> omega

lemma countP_pos_add_neg (res : String → Bool) (l : List String) :
    l.countP res + l.countP (fun f => !res f) = l.length := by
  induction l with
  | nil => simp
  | cons x xs ih =>
    by_cases h : res x = true <;> simp [List.countP_cons, h] <;> omega

/-! ## Claim theorems -/

/-- C1: for frame rate `F > 0`, frame count `N > 0` and duration
`D = N / F`, the decode backend's target frame index and the process
backend's target timestamp denote the same wall-clock offset up to one
frame's duration: `|targetFrame N F / F - max 0 (D - 1)| ≤ 1 / F`. -/
theorem decode_process_targets_agree (N : ℤ) (F : ℚ)
    (hN : 0 < N) (hF : 0 < F) :
    |((targetFrame N F : ℤ) : ℚ) / F - timestamp ((N : ℚ) / F)| ≤ 1 / F := by
  have _hN := hN
  have htr : pytrunc F = ⌊F⌋ := if_pos hF.le
  rcases le_or_lt F (N : ℚ) with h | h
  · have hfl : ⌊F⌋ ≤ N := by simpa using Int.floor_mono h
    have h1 : (1 : ℚ) ≤ (N : ℚ) / F := (one_le_div hF).mpr h
    have htf : targetFrame N F = N - ⌊F⌋ := by
      rw [targetFrame, htr, max_eq_right (sub_nonneg.mpr hfl)]
    have hts : timestamp ((N : ℚ) / F) = (N : ℚ) / F - 1 :=
      max_eq_right (by linarith)
    have hF' : F ≠ 0 := ne_of_gt hF
    have hkey : ((N - ⌊F⌋ : ℤ) : ℚ) / F - ((N : ℚ) / F - 1) =
        (F - ⌊F⌋) / F := by
      field_simp
    rw [htf, hts, hkey,
        abs_of_nonneg (div_nonneg (sub_nonneg.mpr (Int.floor_le F)) hF.le)]
    have hlt := Int.sub_one_lt_floor F
    gcongr
    linarith
  · have hfl : N ≤ ⌊F⌋ := Int.le_floor.mpr h.le
    have htf : targetFrame N F = 0 := by
      rw [targetFrame, htr, max_eq_left (sub_nonpos.mpr hfl)]
    have hts : timestamp ((N : ℚ) / F) = 0 := by
      have hlt : (N : ℚ) / F < 1 := (div_lt_one hF).mpr h
      exact max_eq_left (by linarith)
    rw [htf, hts]
    simp only [Int.cast_zero, zero_div, sub_zero, abs_zero]
    positivity

/-- Witness for C1 at `N = 3`, `F = 2`. -/
theorem decode_process_targets_agree_witness :
    0 < (3 : ℤ) ∧ (0 : ℚ) < 2 ∧
      |((targetFrame 3 2 : ℤ) : ℚ) / 2 - timestamp ((3 : ℚ) / 2)| ≤ 1 / 2 :=
  ⟨by decide, by decide,
    decode_process_targets_agree 3 2 (by decide) (by decide)⟩

/-- C2 counterexample: at `total_frames = 100`, `fps = 1.9`, the decode
backend's seek target (`int` truncation, giving `99`) differs from the
claimed `max(0, total_frames - round(fps))` (rounding, giving `98`). -/
theorem decode_seek_round_cex :
    ¬ targetFrame 100 (19 / 10) = max 0 (100 - round ((19 : ℚ) / 10)) := by
  rw [round_eq]
  norm_num [targetFrame, pytrunc]

/-- C2 amended: when the path exists, the extension is supported and the
capture opens, the decode backend fails for zero frame count or zero
frame rate, and otherwise seeks to frame
`max(0, total_frames - trunc(fps))`, truncating `fps` toward zero. -/
theorem decode_seek_target (cfg : Config) (env : DecodeEnv)
    (oname : Option String) (hex : env.pathExists = true)
    (hfmt : lowerStr env.suffix ∈ SUPPORTED_FORMATS)
    (hopen : env.openOk = true) :
    (pytrunc env.frameCount = 0 ∨ env.fps = 0 →
        extract_thumbnail cfg env oname = (false, [.openCapture, .release])) ∧
    (¬ (pytrunc env.frameCount = 0 ∨ env.fps = 0) →
        Event.setPos (max 0 (pytrunc env.frameCount - pytrunc env.fps)) ∈
          (extract_thumbnail cfg env oname).2) := by
  constructor
  · intro hz
    simp [extract_thumbnail, hex, hfmt, hopen, hz]
  · intro hz
    by_cases hr : env.readOk = true
    · by_cases hw : env.writeRaises = true
      · simp [extract_thumbnail, targetFrame, hex, hfmt, hopen, hz, hr, hw]
      · simp [extract_thumbnail, targetFrame, hex, hfmt, hopen, hz, hr, hw]
    · simp [extract_thumbnail, targetFrame, hex, hfmt, hopen, hz, hr]

/-- Witness for C2's amended statement at a concrete call. -/
theorem decode_seek_target_witness :
    ¬ (pytrunc (300 : ℚ) = 0 ∨ (30 : ℚ) = 0) ∧
    Event.setPos (max 0 (pytrunc (300 : ℚ) - pytrunc (30 : ℚ))) ∈
      (extract_thumbnail ⟨"thumbnails", "jpeg"⟩
        { pathExists := true, suffix := ".mp4", stem := "clip",
          openOk := true, fps := 30, frameCount := 300,
          readOk := true, writeRaises := false } none).2 :=
  ⟨by decide,
   (decode_seek_target ⟨"thumbnails", "jpeg"⟩
     { pathExists := true, suffix := ".mp4", stem := "clip",
       openOk := true, fps := 30, frameCount := 300,
       readOk := true, writeRaises := false } none
     rfl (by decide) rfl).2 (by decide)⟩

/-- C3: for an existing, supported video whose probed duration is a
positive value `d`, the process backend's seek timestamp is
`max 0 (d - 1)`, which is `0` whenever `d < 1`; the extraction reaches
the `ffmpeg` invocation at that timestamp, and when the invocation
completes with an output file present the call succeeds, so a duration
below one second alone never makes it fail. -/
theorem process_timestamp_clamped (folder : String) (env : FfmpegEnv)
    (oname : Option String) (d : ℚ) (hex : env.pathExists = true)
    (hfmt : lowerStr env.suffix ∈ SUPPORTED_FORMATS)
    (hprobe : env.probe = .output (some d)) (hd : 0 < d) :
    timestamp d = max 0 (d - 1) ∧
    (d < 1 → timestamp d = 0) ∧
    Event.runFfmpeg (timestamp d)
        (joinPath folder (ffmpeg_output_name env.stem oname)) ∈
      (ffm_extract_thumbnail folder env oname).2 ∧
    (env.ffmpegRun = .completed true →
        (ffm_extract_thumbnail folder env oname).1 = .ok true) := by
  have hd' : ¬ d ≤ 0 := not_le.mpr hd
  refine ⟨rfl, fun hlt => max_eq_left (by linarith), ?_, ?_⟩
  · rcases henv : env.ffmpegRun with _ | b
    · simp [ffm_extract_thumbnail, get_video_duration, hex, hfmt, hprobe,
            hd', henv]
    · rcases b <;>
        simp [ffm_extract_thumbnail, get_video_duration, hex, hfmt, hprobe,
              hd', henv]
  · intro hrun
    simp [ffm_extract_thumbnail, get_video_duration, hex, hfmt, hprobe,
          hd', hrun]

/-- Witness for C3 at duration `d = 1/2` (a video shorter than one
second) with a completing `ffmpeg` run. -/
theorem process_timestamp_clamped_witness :
    (1 : ℚ) / 2 < 1 ∧
    timestamp (1 / 2) = 0 ∧
    (ffm_extract_thumbnail "thumbnails"
        { pathExists := true, suffix := ".mp4", stem := "clip",
          probe := .output (some (1 / 2)), ffmpegRun := .completed true }
        none).1 = .ok true := by
  have h := process_timestamp_clamped "thumbnails"
    { pathExists := true, suffix := ".mp4", stem := "clip",
      probe := .output (some (1 / 2)), ffmpegRun := .completed true }
    none (1 / 2) rfl (by decide) rfl (by norm_num)
  exact ⟨by norm_num, h.2.1 (by norm_num), h.2.2.2 rfl⟩

/-- C4 (code bug): with an existing, supported input but a missing
`ffprobe` executable, `subprocess.run` raises `FileNotFoundError` inside
`get_video_duration`; the `except` clause there does not list it and the
call site sits outside every `try`, so the exception escapes the
process backend's `extract_thumbnail` instead of becoming a boolean
failure result. -/
theorem process_probe_missing_escapes :
    ffm_extract_thumbnail "thumbnails"
      { pathExists := true, suffix := ".mp4", stem := "clip",
        probe := .fileNotFound, ffmpegRun := .raises } none =
      (.error .fileNotFoundError, [.runFfprobe]) := rfl

/-- C5: in both backends a nonexistent path and, for an existing path, an
extension outside the allowlist each yield a failure with an empty
backend-event trace (no capture opened, no process spawned); the
allowlist check is case-insensitive, so `.MP4` and `.mp4` both pass and
`.txt` is rejected, and a supported suffix such as `.MP4` lets the decode
backend reach the capture open. -/
theorem preconditions_short_circuit :
    (∀ cfg env oname, env.pathExists = false →
        extract_thumbnail cfg env oname = (false, [])) ∧
    (∀ cfg env oname, lowerStr env.suffix ∉ SUPPORTED_FORMATS →
        extract_thumbnail cfg env oname = (false, [])) ∧
    (∀ folder env oname, env.pathExists = false →
        ffm_extract_thumbnail folder env oname = (.ok false, [])) ∧
    (∀ folder env oname, lowerStr env.suffix ∉ SUPPORTED_FORMATS →
        ffm_extract_thumbnail folder env oname = (.ok false, [])) ∧
    lowerStr ".MP4" ∈ SUPPORTED_FORMATS ∧
    lowerStr ".mp4" ∈ SUPPORTED_FORMATS ∧
    lowerStr ".txt" ∉ SUPPORTED_FORMATS ∧
    (∀ cfg env oname, env.pathExists = true →
        lowerStr env.suffix ∈ SUPPORTED_FORMATS →
        Event.openCapture ∈ (extract_thumbnail cfg env oname).2) := by
  refine ⟨?_, ?_, ?_, ?_, by decide, by decide, by decide, ?_⟩
  · intro cfg env oname h
    simp [extract_thumbnail, h]
  · intro cfg env oname h
    by_cases hex : env.pathExists = true
    · simp [extract_thumbnail, hex, h]
    · simp only [Bool.not_eq_true] at hex
      simp [extract_thumbnail, hex]
  · intro folder env oname h
    simp [ffm_extract_thumbnail, h]
  · intro folder env oname h
    by_cases hex : env.pathExists = true
    · simp [ffm_extract_thumbnail, hex, h]
    · simp only [Bool.not_eq_true] at hex
      simp [ffm_extract_thumbnail, hex]
  · intro cfg env oname hex hfmt
    by_cases ho : env.openOk = true
    · by_cases hz : pytrunc env.frameCount = 0 ∨ env.fps = 0
      · simp [extract_thumbnail, hex, hfmt, ho, hz]
      · by_cases hr : env.readOk = true
        · by_cases hw : env.writeRaises = true
          · simp [extract_thumbnail, hex, hfmt, ho, hz, hr, hw]
          · simp [extract_thumbnail, hex, hfmt, ho, hz, hr, hw]
        · simp [extract_thumbnail, hex, hfmt, ho, hz, hr]
    · simp [extract_thumbnail, hex, hfmt, ho]

/-- Witness for C5: a missing path, an existing `.txt` file, and an
existing `.MP4` file, each at a concrete call. -/
theorem preconditions_short_circuit_witness :
    extract_thumbnail ⟨"thumbnails", "jpeg"⟩
      { pathExists := false, suffix := ".mp4", stem := "clip",
        openOk := false, fps := 0, frameCount := 0, readOk := false,
        writeRaises := false } none = (false, []) ∧
    ffm_extract_thumbnail "thumbnails"
      { pathExists := true, suffix := ".txt", stem := "notes",
        probe := .fileNotFound, ffmpegRun := .raises } none =
      (.ok false, []) ∧
    Event.openCapture ∈ (extract_thumbnail ⟨"thumbnails", "jpeg"⟩
      { pathExists := true, suffix := ".MP4", stem := "clip",
        openOk := true, fps := 30, frameCount := 300, readOk := true,
        writeRaises := false } none).2 :=
  ⟨preconditions_short_circuit.1 ⟨"thumbnails", "jpeg"⟩
      { pathExists := false, suffix := ".mp4", stem := "clip",
        openOk := false, fps := 0, frameCount := 0, readOk := false,
        writeRaises := false } none rfl,
   preconditions_short_circuit.2.2.2.1 "thumbnails"
      { pathExists := true, suffix := ".txt", stem := "notes",
        probe := .fileNotFound, ffmpegRun := .raises } none (by decide),
   preconditions_short_circuit.2.2.2.2.2.2.2 ⟨"thumbnails", "jpeg"⟩
      { pathExists := true, suffix := ".MP4", stem := "clip",
        openOk := true, fps := 30, frameCount := 300, readOk := true,
        writeRaises := false } none rfl (by decide)⟩

/-- C6 counterexample: with the caller-supplied output name `../evil`,
the decode backend's extraction succeeds yet writes to
`thumbnails/../evil.jpg`, which lies outside the configured output
folder. -/
theorem output_inside_folder_cex :
    (extract_thumbnail ⟨"thumbnails", "jpeg"⟩
      { pathExists := true, suffix := ".mp4", stem := "clip",
        openOk := true, fps := 30, frameCount := 300, readOk := true,
        writeRaises := false } (some "../evil")).1 = true ∧
    Event.imwrite "thumbnails/../evil.jpg" ∈
      (extract_thumbnail ⟨"thumbnails", "jpeg"⟩
        { pathExists := true, suffix := ".mp4", stem := "clip",
          openOk := true, fps := 30, frameCount := 300, readOk := true,
          writeRaises := false } (some "../evil")).2 ∧
    insideFolder "thumbnails" "thumbnails/../evil.jpg" = false := by
  decide

/-- C6 amended: the default output name is `<stem>_thumbnail.<ext>` with
the configured extension (always `.jpg` in the process backend), an
explicit name lacking a recognized image extension gets the default one
appended, and — provided the stem and any explicit name contain no path
separator — the output path lies inside the configured output folder. -/
theorem output_naming_and_layout :
    (∀ cfg stem, decode_output_name cfg stem none =
        stem ++ "_thumbnail." ++ file_extension cfg) ∧
    (∀ stem, ffmpeg_output_name stem none = stem ++ "_thumbnail.jpg") ∧
    (∀ cfg stem n,
        (endsWithStr ".jpg" n || endsWithStr ".jpeg" n ||
          endsWithStr ".png" n) = false →
        decode_output_name cfg stem (some n) =
          n ++ "." ++ file_extension cfg) ∧
    (∀ stem n, (endsWithStr ".jpg" n || endsWithStr ".png" n) = false →
        ffmpeg_output_name stem (some n) = n ++ ".jpg") ∧
    (∀ cfg folder stem oname, '/' ∉ stem.data →
        (∀ n ∈ oname, '/' ∉ n.data) →
        insideFolder folder
          (joinPath folder (decode_output_name cfg stem oname)) = true) ∧
    (∀ folder stem oname, '/' ∉ stem.data →
        (∀ n ∈ oname, '/' ∉ n.data) →
        insideFolder folder
          (joinPath folder (ffmpeg_output_name stem oname)) = true) := by
  refine ⟨fun cfg stem => rfl, fun stem => rfl, ?_, ?_, ?_, ?_⟩
  · intro cfg stem n h
    rw [decode_output_name, if_neg (by rw [h]; exact Bool.false_ne_true)]
  · intro stem n h
    rw [ffmpeg_output_name, if_neg (by rw [h]; exact Bool.false_ne_true)]
  · intro cfg folder stem oname hstem ho
    obtain ⟨h1, h2⟩ := decode_output_name_safe cfg stem oname hstem ho
    rw [joinPath_of_noSlash folder _ h1]
    exact insideFolder_join folder _ h1 h2
  · intro folder stem oname hstem ho
    obtain ⟨h1, h2⟩ := ffmpeg_output_name_safe stem oname hstem ho
    rw [joinPath_of_noSlash folder _ h1]
    exact insideFolder_join folder _ h1 h2

/-- Witness for C6's amended statement: default naming for `clip.mp4`,
extension appending for the explicit name `cover`, and containment of
both backends' output paths. -/
theorem output_naming_and_layout_witness :
    decode_output_name ⟨"thumbnails", "jpeg"⟩ "clip" none =
      "clip" ++ "_thumbnail." ++ file_extension ⟨"thumbnails", "jpeg"⟩ ∧
    (endsWithStr ".jpg" "cover" || endsWithStr ".jpeg" "cover" ||
      endsWithStr ".png" "cover") = false ∧
    decode_output_name ⟨"thumbnails", "jpeg"⟩ "clip" (some "cover") =
      "cover" ++ "." ++ file_extension ⟨"thumbnails", "jpeg"⟩ ∧
    insideFolder "thumbnails"
      (joinPath "thumbnails"
        (decode_output_name ⟨"thumbnails", "jpeg"⟩ "clip" (some "cover"))) =
      true ∧
    insideFolder "thumbnails"
      (joinPath "thumbnails" (ffmpeg_output_name "clip" none)) = true :=
  ⟨output_naming_and_layout.1 ⟨"thumbnails", "jpeg"⟩ "clip",
   by decide,
   output_naming_and_layout.2.2.1 ⟨"thumbnails", "jpeg"⟩ "clip" "cover"
     (by decide),
   output_naming_and_layout.2.2.2.2.1 ⟨"thumbnails", "jpeg"⟩ "thumbnails"
     "clip" (some "cover") (by decide) (by decide),
   output_naming_and_layout.2.2.2.2.2 "thumbnails" "clip" none (by decide)
     (by simp)⟩

/-- C7: on an existing directory with at least one matched file, folder
extraction invokes single-file extraction on every enumerated file —
counting one success per `true` outcome and one failure per `false`
outcome over the whole list, with no early abort after a failure. -/
theorem folder_counts_every_file (env : FolderEnv) (res : String → Bool)
    (hex : env.pathExists = true) (hdir : env.isDir = true)
    (hne : findVideoFiles env ≠ []) :
    process_folder env res =
      ((findVideoFiles env).countP res,
       (findVideoFiles env).countP (fun f => !res f)) := by
  rw [process_folder]
  simp only [hex, hdir, Bool.not_true, not_true_eq_false, if_neg,
    Bool.false_eq_true, not_false_eq_true, hne]
  simpa using foldl_counts res (findVideoFiles env) 0 0

/-- Witness for C7: a directory of three extractable videos and one
failing video yields the summary `(3, 1)`. -/
theorem folder_counts_every_file_witness :
    process_folder
      { pathExists := true, isDir := true,
        entries := ["a.mp4", "b.mp4", "c.mp4", "corrupt.mp4"],
        caseInsensitiveFS := false }
      (fun f => !(f == "corrupt.mp4")) = (3, 1) := by
  have h := folder_counts_every_file
    { pathExists := true, isDir := true,
      entries := ["a.mp4", "b.mp4", "c.mp4", "corrupt.mp4"],
      caseInsensitiveFS := false }
    (fun f => !(f == "corrupt.mp4")) rfl rfl (by decide)
  rw [h]
  decide

/-- C8 (code bug): on a case-insensitive filesystem the lower-case and
upper-case glob patterns both match `video.mp4`; the enumeration carries
no deduplication, so the single file is enumerated twice and single-file
extraction is invoked twice for it, giving summary `(2, 0)` for a
one-file directory. -/
theorem folder_double_processing :
    findVideoFiles
      { pathExists := true, isDir := true, entries := ["video.mp4"],
        caseInsensitiveFS := true } = ["video.mp4", "video.mp4"] ∧
    process_folder
      { pathExists := true, isDir := true, entries := ["video.mp4"],
        caseInsensitiveFS := true } (fun f => f == "video.mp4") =
      (2, 0) := by
  decide

/-- C9: whenever the decode backend's capture opens, every exit path of
the extraction — including the read failure, the invalid-property
failure, and the exception path during the image write — carries a
release event; and the process backend's boundary events are exclusively
run-to-completion subprocess invocations, which hold no resource past
the call. -/
theorem resources_released_every_path :
    (∀ cfg env oname, env.openOk = true →
        Event.openCapture ∈ (extract_thumbnail cfg env oname).2 →
        Event.release ∈ (extract_thumbnail cfg env oname).2) ∧
    (∀ folder env oname, ∀ e ∈ (ffm_extract_thumbnail folder env oname).2,
        e = Event.runFfprobe ∨ ∃ ts p, e = Event.runFfmpeg ts p) := by
  constructor
  · intro cfg env oname ho hacq
    by_cases hex : env.pathExists = true
    · by_cases hfmt : lowerStr env.suffix ∈ SUPPORTED_FORMATS
      · by_cases hz : pytrunc env.frameCount = 0 ∨ env.fps = 0
        · simp [extract_thumbnail, hex, hfmt, ho, hz]
        · by_cases hr : env.readOk = true
          · by_cases hw : env.writeRaises = true
            · simp [extract_thumbnail, hex, hfmt, ho, hz, hr, hw]
            · simp [extract_thumbnail, hex, hfmt, ho, hz, hr, hw]
          · simp [extract_thumbnail, hex, hfmt, ho, hz, hr]
      · simp [extract_thumbnail, hex, hfmt] at hacq
    · simp only [Bool.not_eq_true] at hex
      simp [extract_thumbnail, hex] at hacq
  · intro folder env oname e he
    by_cases hex : env.pathExists = true
    · by_cases hfmt : lowerStr env.suffix ∈ SUPPORTED_FORMATS
      · rcases hp : env.probe with _ | _ | d
        · simp [ffm_extract_thumbnail, get_video_duration, hex, hfmt,
            hp] at he
          simp [he]
        · simp [ffm_extract_thumbnail, get_video_duration, hex, hfmt,
            hp] at he
          simp [he]
        · rcases d with _ | d
          · simp [ffm_extract_thumbnail, get_video_duration, hex, hfmt,
              hp] at he
            simp [he]
          · by_cases hd : d ≤ 0
            · simp [ffm_extract_thumbnail, get_video_duration, hex, hfmt,
                hp, hd] at he
              simp [he]
            · rcases hrun : env.ffmpegRun with _ | b
              · simp [ffm_extract_thumbnail, get_video_duration, hex,
                  hfmt, hp, hd, hrun] at he
                rcases he with he | he
                · simp [he]
                · right; exact ⟨_, _, he⟩
              · rcases b <;>
                  · simp [ffm_extract_thumbnail, get_video_duration, hex,
                      hfmt, hp, hd, hrun] at he
                    rcases he with he | he
                    · simp [he]
                    · right; exact ⟨_, _, he⟩
      · simp [ffm_extract_thumbnail, hex, hfmt] at he
    · simp only [Bool.not_eq_true] at hex
      simp [ffm_extract_thumbnail, hex] at he

/-- Witness for C9 on an exception path: the image write raises, the
exception is caught, and the capture is still released. -/
theorem resources_released_every_path_witness :
    Event.release ∈ (extract_thumbnail ⟨"thumbnails", "jpeg"⟩
      { pathExists := true, suffix := ".mp4", stem := "clip",
        openOk := true, fps := 30, frameCount := 300, readOk := true,
        writeRaises := true } none).2 :=
  resources_released_every_path.1 ⟨"thumbnails", "jpeg"⟩
    { pathExists := true, suffix := ".mp4", stem := "clip",
      openOk := true, fps := 30, frameCount := 300, readOk := true,
      writeRaises := true } none rfl (by decide)

/-- C10: on an existing directory with at least one matched file, the
folder summary's two counters partition the enumerated files: their sum
equals the number of enumerated matched files (both counters are natural
numbers, hence non-negative). -/
theorem folder_summary_partition (env : FolderEnv) (res : String → Bool)
    (hex : env.pathExists = true) (hdir : env.isDir = true)
    (hne : findVideoFiles env ≠ []) :
    (process_folder env res).1 + (process_folder env res).2 =
      (findVideoFiles env).length := by
  rw [process_folder]
  simp only [hex, hdir, Bool.not_true, not_true_eq_false, if_neg,
    Bool.false_eq_true, not_false_eq_true, hne]
  rw [foldl_counts res (findVideoFiles env) 0 0]
  simpa using countP_pos_add_neg res (findVideoFiles env)

/-- Witness for C10 on a three-file directory with one success. -/
theorem folder_summary_partition_witness :
    (process_folder
        { pathExists := true, isDir := true,
          entries := ["a.mp4", "b.MOV", "c.webm"],
          caseInsensitiveFS := false }
        (fun f => f == "a.mp4")).1 +
      (process_folder
        { pathExists := true, isDir := true,
          entries := ["a.mp4", "b.MOV", "c.webm"],
          caseInsensitiveFS := false }
        (fun f => f == "a.mp4")).2 =
      (findVideoFiles
        { pathExists := true, isDir := true,
          entries := ["a.mp4", "b.MOV", "c.webm"],
          caseInsensitiveFS := false }).length :=
  folder_summary_partition
    { pathExists := true, isDir := true,
      entries := ["a.mp4", "b.MOV", "c.webm"],
      caseInsensitiveFS := false }
    (fun f => f == "a.mp4") rfl rfl (by decide)

end ThumbEx
